import Mathlib

/-!
# A model of `src/trie.h`: alphabet, node graph, iterator, container

The C++ container keeps a tree of heap nodes linked by owning child arrays
(`_nodes`) and non-owning parent pointers (`_parent`).  Ownership is strictly
tree shaped, so a node is identified by the sequence of child slots that leads
to it from the root:

* a node pointer (`self *`, `trie::pointer`) is a `pointer`, a list of slot
  indices read from the root downwards; the root is `[]`;
* `_parent` of the node at `p` is `p.dropLast` (and null for `[]`);
* a nullable pointer is an `Option pointer`;
* the state of the container is the tree below the root, and a member function
  that mutates takes the tree and returns the new tree;
* an exception is an `Except.error`; a mutating function returns the tree as it
  is when the function is left, also when it is left by an exception;
* `int` and `size_t` are unbounded integers (no key or alphabet in reach of
  the claims comes near the machine limits);
* recursion that follows parent links or the in-order walk takes a `fuel`
  argument and reports `out_of_fuel` when it is used up;
* the pointer `_nodes` has three states: null, the address of a child array,
  and indeterminate.  The private constructor of `trie_node` gives `_nodes` no
  initialiser (trie.h 217-218), so the `_nodes` of every node made by `new` is
  indeterminate until it is written, and every read of an indeterminate
  `_nodes` is `undefined_behaviour`.

Inside the member functions the destructor `~trie_node()` (trie.h 153-159) runs
at `delete _nodes[key]` in `prune`, on a node whose `_nodes` `should_prune` has
just read, and on the temporary of `clear()`, whose `_nodes` is null; the
destruction of the container itself is not modelled.

All nodes of one container hold the same `_alphabet` pointer (the root gets it
in the constructor of `trie`, every other node is given its parent's one by
`get_or_create_node`), so the pointer is passed to the node functions as an
`Option (alphabet K)` and dereferenced where the source dereferences it.
-/

deriving instance DecidableEq for Except

namespace Trie

/-- Failures of the source: the three exception types of namespace `error`, plus what C++ leaves
undefined (`undefined_behaviour`: a null or dangling pointer is dereferenced, an array is read
outside its bounds) and the exhaustion of the fuel of the model. -/
inductive error where
  | not_in_alphabet
  | invalid_alphabet_sequence
  | null_iterator
  | undefined_behaviour
  | out_of_fuel
  deriving DecidableEq, Repr

/-! ## `class alphabet` -/

/-- State of `alphabet<KeyT, PredT>`: the comparator `_compare` and the vector `_alpha`. -/
structure alphabet (K : Type) where
  _compare : K → K → Bool
  _alpha : List K

namespace alphabet

variable {K : Type}

/-- Insertion of `std::set<key_type, compare_type>::insert`: the set is kept in ascending order
and an element equivalent to a stored one is not inserted. -/
def set_insert (compare : K → K → Bool) : List K → K → List K
  | [], x => [x]
  | y :: ys, x =>
    if compare x y then x :: y :: ys
    else if compare y x then y :: set_insert compare ys x
    else y :: ys

/-- Constructor `alphabet(const SequenceT &alpha)` (trie.h 57-71); `key_bits` is
`sizeof(key_type) * 8`. -/
def construct (compare : K → K → Bool) (key_bits : Nat) (alpha : List K) :
    Except error (alphabet K) :=
  let unique := alpha.foldl (set_insert compare) []
  if unique.length > 2 ^ key_bits then .error .invalid_alphabet_sequence
  else .ok ⟨compare, unique.insertionSort (fun x y => compare x y = true)⟩

/-- Member `size()` (trie.h 83-85). -/
def size (a : alphabet K) : Nat := a._alpha.length

/-- Member `binary_search(min, max, ch)` (trie.h 89-98); every call uses one unit of fuel. -/
def binary_search (a : alphabet K) : Nat → Nat → Nat → K → Except error Int
  | 0, _, _, _ => .error .out_of_fuel
  | fuel + 1, min, max, ch =>
    if min ≥ max then .ok (-1)
    else
      let mid := (min + max) / 2
      match a._alpha[mid]? with
      | none => .error .undefined_behaviour
      | some x =>
        if a._compare x ch then a.binary_search fuel (mid + 1) max ch
        else if a._compare ch x then a.binary_search fuel min mid ch
        else .ok (Int.ofNat mid)

/-- Member `index_of(ch)` (trie.h 73-75).  The interval halves with every call, so
`size + 1` calls are enough. -/
def index_of (a : alphabet K) (ch : K) : Except error Int :=
  a.binary_search (a.size + 1) 0 a.size ch

/-- Member `value_of(index)` (trie.h 77-81): the test is `index < 0 || index > _alpha.size()`,
and `_alpha[index]` past the last element of the vector is undefined. -/
def value_of (a : alphabet K) (index : Int) : Except error K :=
  if index < 0 ∨ index > (a._alpha.length : Int) then .error .not_in_alphabet
  else
    match a._alpha[index.toNat]? with
    | none => .error .undefined_behaviour
    | some x => .ok x

end alphabet

/-! ## `class trie_node` -/

/-- State of a pointer member that may never have been written: `null` (`nullptr`),
`indeterminate` (no initialiser has run and nothing was assigned), or `array cs` (the address
of an allocated array with the contents `cs`). -/
inductive nodes_pointer (A : Type) where
  | null
  | indeterminate
  | array (cs : A)

/-- State of one `trie_node`: `_value` (presence flag and payload), `_key` (the symbol on the
edge from the parent) and `_nodes` (null, indeterminate, or the array of child slots, each null
or an owned child).  `_parent` is given by the position of the node and `_alphabet` is shared. -/
inductive trie_node (K V : Type) where
  | mk (_value : Bool × V) (_key : K)
      (_nodes : nodes_pointer (List (Option (trie_node K V)))) : trie_node K V

/-- A node pointer: the child slots on the way from the root to the node. -/
abbrev pointer := List Nat

namespace trie_node

variable {K V : Type}

/-- Field `_value`. -/
def _value : trie_node K V → Bool × V
  | mk v _ _ => v

/-- Field `_key`. -/
def _key : trie_node K V → K
  | mk _ k _ => k

/-- Field `_nodes`. -/
def _nodes : trie_node K V → nodes_pointer (List (Option (trie_node K V)))
  | mk _ _ ns => ns

/-- Read `arr[i]` of a child array; a slot outside the array reads as null (an array allocated
by `init_nodes` has `_alphabet->size()` slots and is only read inside them). -/
def slot (cs : List (Option (trie_node K V))) (i : Nat) : Option (trie_node K V) :=
  (cs[i]?).join

/-- The node a node owns in slot `i`: the child `_nodes[i]` when `_nodes` is an array; a node
whose `_nodes` is null or indeterminate owns no node.  (This is the shape of the graph, by which
a pointer of the model is followed; it is not a read of the field by the source.) -/
def child (n : trie_node K V) (i : Nat) : Option (trie_node K V) :=
  match n._nodes with
  | .array cs => slot cs i
  | _ => none

/-- Write `_nodes[i] = c`. -/
def set_child (n : trie_node K V) (i : Nat) (c : Option (trie_node K V)) : trie_node K V :=
  match n._nodes with
  | .array cs => mk n._value n._key (.array (cs.set i c))
  | _ => n

/-- Write `_value = v`. -/
def set_value (n : trie_node K V) (v : Bool × V) : trie_node K V :=
  mk v n._key n._nodes

/-- Dereference a pointer in the tree below `root`; `none` when no node is there. -/
def node_at : trie_node K V → pointer → Option (trie_node K V)
  | n, [] => some n
  | n, i :: p =>
    match child n i with
    | none => none
    | some c => node_at c p

/-- Replace the node a pointer refers to by `f` of it (a write through the pointer). -/
def update_at : trie_node K V → pointer → (trie_node K V → trie_node K V) → trie_node K V
  | n, [], f => f n
  | n, i :: p, f =>
    match child n i with
    | none => n
    | some c => set_child n i (some (update_at c p f))

/-- The pointer `_parent` of the node at `self`: null for the root. -/
def parent (self : pointer) : Option pointer :=
  match self with
  | [] => none
  | _ :: _ => some self.dropLast

/-- Member `value()` (trie.h 145-147), read through a pointer: the payload `_value.second`. -/
def value (root : trie_node K V) (self : pointer) : Option V :=
  (node_at root self).map (fun n => n._value.2)

/-- Assignment through the reference returned by `value()` or `operator[]`. -/
def assign (root : trie_node K V) (self : pointer) (v : V) : trie_node K V :=
  update_at root self (fun n => set_value n (n._value.1, v))

/-- The loop of `key()` (trie.h 138-141): `next` is the loop variable, `key` the sequence built
so far, and one unit of fuel is used per parent link followed. -/
def key_loop (root : trie_node K V) : Nat → pointer → List K → Except error (List K)
  | fuel, next, key =>
    match parent next with
    | none => .ok key
    | some par =>
      match fuel with
      | 0 => .error .out_of_fuel
      | fuel + 1 =>
        match node_at root next with
        | none => .error .undefined_behaviour
        | some n => key_loop root fuel par (n._key :: key)

/-- Member `key()` (trie.h 134-143), called on the node at `self`; the loop follows
`self.length` parent links. -/
def key (root : trie_node K V) (self : pointer) : Except error (List K) :=
  key_loop root self.length self []

/-- Member `active()` (trie.h 349-351). -/
def active (n : trie_node K V) : Bool := n._value.1

/-- Member `root()` (trie.h 274-276): follow `_parent` until it is null; that node is `[]`. -/
def root (_self : pointer) : pointer := []

/-- Member `index_of(key)` (trie.h 278-283). -/
def index_of (a : Option (alphabet K)) (key : K) : Except error Nat :=
  match a with
  | none => .error .undefined_behaviour
  | some al =>
    match al.index_of key with
    | .error e => .error e
    | .ok index => if index < 0 then .error .not_in_alphabet else .ok index.toNat

/-- Constructor `trie_node()` (trie.h 151): no value, `_nodes` null.  The constructor gives
`_key` no initialiser; it makes the root only, whose `_key` no member function reads (every read
of `_key` is guarded by a non-null `_parent`), so the field holds a placeholder here. -/
def empty [Inhabited K] [Inhabited V] : trie_node K V := mk (false, default) default .null

/-- Constructor `trie_node(key, parent, alphabet)` (trie.h 217-218): `_value` is
value-initialised by the constructor of `std::pair`, `_key` is the key, and `_nodes` has no
initialiser: it is indeterminate. -/
def create [Inhabited V] (key : K) : trie_node K V := mk (false, default) key .indeterminate

/-- Member `get_node(key)` (trie.h 294-296): `_nodes ? _nodes[index_of(key)] : nullptr`. -/
def get_node (a : Option (alphabet K)) (root : trie_node K V) (self : pointer) (key : K) :
    Except error (Option pointer) :=
  match node_at root self with
  | none => .error .undefined_behaviour
  | some n =>
    match n._nodes with
    | .indeterminate => .error .undefined_behaviour
    | .null => .ok none
    | .array cs =>
      match index_of a key with
      | .error e => .error e
      | .ok i => .ok (if (slot cs i).isSome then some (self ++ [i]) else none)

/-- Member `traverse(key)` (trie.h 285-292); `node` is the loop variable. -/
def traverse (a : Option (alphabet K)) (root : trie_node K V) :
    pointer → List K → Except error (Option pointer)
  | node, [] => .ok (some node)
  | node, k :: ks =>
    match get_node a root node k with
    | .error e => .error e
    | .ok none => .ok none
    | .ok (some next) => traverse a root next ks

/-- Member `find(key)` (trie.h 168-171). -/
def find (a : Option (alphabet K)) (root : trie_node K V) (self : pointer) (key : List K) :
    Except error (Option pointer) :=
  traverse a root self key

/-- Member `has(key)` (trie.h 173-177). -/
def has (a : Option (alphabet K)) (root : trie_node K V) (self : pointer) (key : List K) :
    Except error Bool :=
  match traverse a root self key with
  | .error e => .error e
  | .ok none => .ok false
  | .ok (some node) =>
    match node_at root node with
    | none => .error .undefined_behaviour
    | some n => .ok n._value.1

/-- Member `init_nodes()` (trie.h 314-321), on the node itself: the test `!_nodes` reads the
field. -/
def init_nodes (a : Option (alphabet K)) (n : trie_node K V) : Except error (trie_node K V) :=
  match n._nodes with
  | .indeterminate => .error .undefined_behaviour
  | .array _ => .ok n
  | .null =>
    match a with
    | none => .error .undefined_behaviour
    | some al => .ok (mk n._value n._key (.array (List.replicate al.size none)))

/-- Member `get_or_create_node(key)` (trie.h 306-312): `init_nodes()` runs before `index_of`
can throw. -/
def get_or_create_node [Inhabited V] (a : Option (alphabet K)) (root : trie_node K V)
    (self : pointer) (key : K) : trie_node K V × Except error pointer :=
  match node_at root self with
  | none => (root, .error .undefined_behaviour)
  | some n =>
    match init_nodes a n with
    | .error e => (root, .error e)
    | .ok n1 =>
      let root1 := update_at root self (fun _ => n1)
      match index_of a key with
      | .error e => (root1, .error e)
      | .ok i =>
        match child n1 i with
        | some _ => (root1, .ok (self ++ [i]))
        | none => (update_at root1 self (fun m => set_child m i (some (create key))),
            .ok (self ++ [i]))

/-- Member `traverse_and_create(key)` (trie.h 298-304); `next` is the loop variable. -/
def traverse_and_create [Inhabited V] (a : Option (alphabet K)) :
    trie_node K V → pointer → List K → trie_node K V × Except error pointer
  | root, next, [] => (root, .ok next)
  | root, next, k :: ks =>
    match get_or_create_node a root next k with
    | (root1, .error e) => (root1, .error e)
    | (root1, .ok node) => traverse_and_create a root1 node ks

/-- Member `operator[](key)` (trie.h 161-166).  The reference `node->_value.second` it returns
is the pointer to the node: read it with `value`, write it with `assign`. -/
def subscript [Inhabited V] (a : Option (alphabet K)) (root : trie_node K V) (self : pointer)
    (key : List K) : trie_node K V × Except error pointer :=
  match traverse_and_create a root self key with
  | (root1, .error e) => (root1, .error e)
  | (root1, .ok node) => (update_at root1 node (fun n => set_value n (true, n._value.2)), .ok node)

/-- Member `is_pruned(key)` (trie.h 333-335): `!_nodes || !_nodes[key]`. -/
def is_pruned (n : trie_node K V) (key : Nat) : Except error Bool :=
  match n._nodes with
  | .indeterminate => .error .undefined_behaviour
  | .null => .ok true
  | .array cs => .ok (slot cs key).isNone

/-- Member `should_prune(node)` (trie.h 337-347); the loop runs over the slots
`0 .. _alphabet->size() - 1`. -/
def should_prune (a : Option (alphabet K)) (node : Option (trie_node K V)) : Except error Bool :=
  match node with
  | none => .ok true
  | some nd =>
    if nd._value.1 then .ok false
    else
      match nd._nodes with
      | .indeterminate => .error .undefined_behaviour
      | .null => .ok true
      | .array cs =>
        match a with
        | none => .error .undefined_behaviour
        | some al => .ok (!(List.range al.size).any (fun i => (slot cs i).isSome))

/-- Member `prune(key)` (trie.h 323-331), on the node itself: the new node and the result.
The destructor that `delete _nodes[key]` runs reads the `_nodes` of the child, which
`should_prune` has read before it. -/
def prune (a : Option (alphabet K)) (n : trie_node K V) (key : Nat) :
    Except error (trie_node K V × Bool) :=
  match is_pruned n key with
  | .error e => .error e
  | .ok true => .ok (n, true)
  | .ok false =>
    match should_prune a (child n key) with
    | .error e => .error e
    | .ok false => .ok (n, false)
    | .ok true => .ok (set_child n key none, true)

/-- The call `node->prune(key)` through a pointer. -/
def prune_at (a : Option (alphabet K)) (root : trie_node K V) (node : pointer) (key : Nat) :
    trie_node K V × Except error Bool :=
  match node_at root node with
  | none => (root, .error .undefined_behaviour)
  | some n =>
    match prune a n key with
    | .error e => (root, .error e)
    | .ok (n1, b) => (update_at root node (fun _ => n1), .ok b)

/-- The loop of `remove(key)` (trie.h 187-191).  The first argument is `i + 1` for the loop
variable `i`, so `0` is the exit `i < 0`. -/
def remove_loop (a : Option (alphabet K)) (key : List K) :
    Nat → trie_node K V → pointer → trie_node K V × Except error Unit
  | 0, root, _ => (root, .ok ())
  | i + 1, root, node =>
    match parent node with
    | none => (root, .ok ())
    | some par =>
      match key[i]? with
      | none => (root, .error .undefined_behaviour)
      | some k =>
        match index_of a k with
        | .error e => (root, .error e)
        | .ok index =>
          match prune_at a root par index with
          | (root1, .error e) => (root1, .error e)
          | (root1, .ok false) => (root1, .ok ())
          | (root1, .ok true) => remove_loop a key i root1 par

/-- Member `remove(key)` (trie.h 179-193). -/
def remove [Inhabited V] (a : Option (alphabet K)) (root : trie_node K V) (self : pointer)
    (key : List K) : trie_node K V × Except error Bool :=
  match traverse a root self key with
  | .error e => (root, .error e)
  | .ok none => (root, .ok false)
  | .ok (some node) =>
    let root1 := update_at root node (fun n => set_value n (false, default))
    match remove_loop a key key.length root1 node with
    | (root2, .error e) => (root2, .error e)
    | (root2, .ok _) => (root2, .ok true)

/-- The loop of `erase()` (trie.h 198-203); `next` is the loop variable, and one unit of fuel
is used per parent link followed. -/
def erase_loop (a : Option (alphabet K)) :
    Nat → trie_node K V → pointer → trie_node K V × Except error Unit
  | fuel, root, next =>
    match parent next with
    | none => (root, .ok ())
    | some par =>
      match fuel with
      | 0 => (root, .error .out_of_fuel)
      | fuel + 1 =>
        match node_at root next with
        | none => (root, .error .undefined_behaviour)
        | some n =>
          match index_of a n._key with
          | .error e => (root, .error e)
          | .ok index =>
            match prune_at a root par index with
            | (root1, .error e) => (root1, .error e)
            | (root1, .ok false) => (root1, .ok ())
            | (root1, .ok true) => erase_loop a fuel root1 par

/-- Member `erase()` (trie.h 195-204), called on the node at `self`; the loop follows at most
`self.length` parent links. -/
def erase [Inhabited V] (a : Option (alphabet K)) (root : trie_node K V) (self : pointer) :
    trie_node K V × Except error Unit :=
  match node_at root self with
  | none => (root, .error .undefined_behaviour)
  | some _ =>
    erase_loop a self.length (update_at root self (fun n => set_value n (false, default))) self

mutual
/-- Member `size(x)` (trie.h 206-213): the number added to `x`; the test `if (_nodes)` reads the
field.  The loop runs over the slots of the child array, which are `_alphabet->size()` many
(`init_nodes` allocates the array through `_alphabet`, so that pointer is not null here). -/
def size : trie_node K V → Except error Nat
  | mk v _ .null => .ok (if v.1 then 1 else 0)
  | mk _ _ .indeterminate => .error .undefined_behaviour
  | mk v _ (.array cs) =>
    match size_children cs with
    | .error e => .error e
    | .ok x => .ok ((if v.1 then 1 else 0) + x)
/-- The loop of `size(x)` over the child array. -/
def size_children : List (Option (trie_node K V)) → Except error Nat
  | [] => .ok 0
  | none :: cs => size_children cs
  | some c :: cs =>
    match size c with
    | .error e => .error e
    | .ok x =>
      match size_children cs with
      | .error e => .error e
      | .ok y => .ok (x + y)
end

/-- The loop `while (start < _alphabet->size() && _nodes[start] == nullptr) ++start`
(trie.h 259-260); the first argument bounds the number of rounds, `size - start` of them are
enough. -/
def successor_scan (cs : List (Option (trie_node K V))) (size : Nat) : Nat → Nat → Nat
  | 0, start => start
  | n + 1, start =>
    if start < size ∧ (slot cs start).isNone then successor_scan cs size n (start + 1)
    else start

/-- The loop `while (start >= 0 && _nodes[start] == nullptr) --start` (trie.h 232-233); the
first argument bounds the number of rounds, `start + 1` of them are enough. -/
def predecessor_scan (cs : List (Option (trie_node K V))) : Nat → Int → Int
  | 0, start => start
  | n + 1, start =>
    if 0 ≤ start ∧ (slot cs start.toNat).isNone then predecessor_scan cs n (start - 1)
    else start

mutual
/-- Member `successor(start)` (trie.h 247-253); every call uses one unit of fuel. -/
def successor (a : Option (alphabet K)) (root : trie_node K V) :
    Nat → pointer → Nat → Except error pointer
  | 0, _, _ => .error .out_of_fuel
  | fuel + 1, self, start =>
    match successor_in_children a root fuel self start with
    | .error e => .error e
    | .ok (some node) => .ok node
    | .ok none =>
      match successor_in_parent a root fuel self with
      | .error e => .error e
      | .ok (some node) => .ok node
      | .ok none => .ok (trie_node.root self)
/-- Member `successor_in_children(start)` (trie.h 255-268): the test `!_nodes` reads the
field. -/
def successor_in_children (a : Option (alphabet K)) (root : trie_node K V) :
    Nat → pointer → Nat → Except error (Option pointer)
  | 0, _, _ => .error .out_of_fuel
  | fuel + 1, self, start =>
    match node_at root self with
    | none => .error .undefined_behaviour
    | some n =>
      match n._nodes with
      | .indeterminate => .error .undefined_behaviour
      | .null => .ok none
      | .array cs =>
        match a with
        | none => .error .undefined_behaviour
        | some al =>
          let start1 := successor_scan cs al.size (al.size - start) start
          if start1 ≥ al.size then .ok none
          else
            match slot cs start1 with
            | none => .error .undefined_behaviour
            | some c =>
              if c.active then .ok (some (self ++ [start1]))
              else
                match successor a root fuel (self ++ [start1]) 0 with
                | .error e => .error e
                | .ok node => .ok (some node)
/-- Member `successor_in_parent()` (trie.h 270-272). -/
def successor_in_parent (a : Option (alphabet K)) (root : trie_node K V) :
    Nat → pointer → Except error (Option pointer)
  | 0, _ => .error .out_of_fuel
  | fuel + 1, self =>
    match parent self with
    | none => .ok none
    | some par =>
      match node_at root self with
      | none => .error .undefined_behaviour
      | some n =>
        match index_of a n._key with
        | .error e => .error e
        | .ok index =>
          match successor a root fuel par (index + 1) with
          | .error e => .error e
          | .ok node => .ok (some node)
end

mutual
/-- Member `predecessor(start)` (trie.h 220-226); every call uses one unit of fuel. -/
def predecessor (a : Option (alphabet K)) (root : trie_node K V) :
    Nat → pointer → Int → Except error pointer
  | 0, _, _ => .error .out_of_fuel
  | fuel + 1, self, start =>
    match predecessor_in_children a root fuel self start with
    | .error e => .error e
    | .ok (some node) => .ok node
    | .ok none =>
      match predecessor_in_parent a root fuel self with
      | .error e => .error e
      | .ok (some node) => .ok node
      | .ok none => .ok (trie_node.root self)
/-- Member `predecessor_in_children(start)` (trie.h 228-241); the call `_nodes[start]->predecessor()`
is `predecessor(int(_alphabet->size()) - 1)` (trie.h 130-132). -/
def predecessor_in_children (a : Option (alphabet K)) (root : trie_node K V) :
    Nat → pointer → Int → Except error (Option pointer)
  | 0, _, _ => .error .out_of_fuel
  | fuel + 1, self, start =>
    match node_at root self with
    | none => .error .undefined_behaviour
    | some n =>
      match n._nodes with
      | .indeterminate => .error .undefined_behaviour
      | .null => .ok none
      | .array cs =>
        let start1 := predecessor_scan cs (start + 1).toNat start
        if start1 < 0 then .ok none
        else
          match slot cs start1.toNat with
          | none => .error .undefined_behaviour
          | some c =>
            if c.active then .ok (some (self ++ [start1.toNat]))
            else
              match a with
              | none => .error .undefined_behaviour
              | some al =>
                match predecessor a root fuel (self ++ [start1.toNat]) ((al.size : Int) - 1) with
                | .error e => .error e
                | .ok node => .ok (some node)
/-- Member `predecessor_in_parent()` (trie.h 243-245). -/
def predecessor_in_parent (a : Option (alphabet K)) (root : trie_node K V) :
    Nat → pointer → Except error (Option pointer)
  | 0, _ => .error .out_of_fuel
  | fuel + 1, self =>
    match parent self with
    | none => .ok none
    | some par =>
      match node_at root self with
      | none => .error .undefined_behaviour
      | some n =>
        match index_of a n._key with
        | .error e => .error e
        | .ok index =>
          match predecessor a root fuel par ((index : Int) - 1) with
          | .error e => .error e
          | .ok node => .ok (some node)
end

end trie_node

/-! ## `class trie_iterator` and `class trie` -/

/-- State of `trie_iterator`: the pointer `_node`, which may be null. -/
abbrev trie_iterator := Option pointer

/-- State of `trie`: the root node, the alphabet, and the pointer `_root._alphabet` (which is
the pointer held by every node of the container). -/
structure trie (K V : Type) where
  _root : trie_node K V
  _alphabet : alphabet K
  _root_alphabet : Option (alphabet K)

namespace trie_iterator

variable {K V : Type}

/-- Member `operator*()` (trie.h 364-368): the node referred to. -/
def deref (it : trie_iterator) : Except error pointer :=
  match it with
  | none => .error .null_iterator
  | some node => .ok node

/-- Member `operator++()` (trie.h 374-379); `_node->successor()` is `successor(0)`
(trie.h 126-128). -/
def incr (t : trie K V) (fuel : Nat) (it : trie_iterator) : Except error trie_iterator :=
  match it with
  | none => .error .null_iterator
  | some node =>
    match trie_node.successor t._root_alphabet t._root fuel node 0 with
    | .error e => .error e
    | .ok next => .ok (some next)

/-- Member `operator--()` (trie.h 387-392); `_node->predecessor()` is
`predecessor(int(_alphabet->size()) - 1)` (trie.h 130-132). -/
def decr (t : trie K V) (fuel : Nat) (it : trie_iterator) : Except error trie_iterator :=
  match it with
  | none => .error .null_iterator
  | some node =>
    match t._root_alphabet with
    | none => .error .undefined_behaviour
    | some al =>
      match trie_node.predecessor t._root_alphabet t._root fuel node ((al.size : Int) - 1) with
      | .error e => .error e
      | .ok next => .ok (some next)

end trie_iterator

namespace trie

variable {K V : Type}

/-- Constructor `trie(alpha)` (trie.h 438-441). -/
def construct [Inhabited K] [Inhabited V] (compare : K → K → Bool) (key_bits : Nat)
    (alpha : List K) : Except error (trie K V) :=
  match alphabet.construct compare key_bits alpha with
  | .error e => .error e
  | .ok al => .ok ⟨trie_node.empty, al, some al⟩

/-- Member `operator[](key)` (trie.h 443-446): the container afterwards and the node whose
payload the returned reference refers to. -/
def subscript [Inhabited V] (t : trie K V) (key : List K) : trie K V × Except error pointer :=
  match trie_node.subscript t._root_alphabet t._root [] key with
  | (root1, r) => ({ t with _root := root1 }, r)

/-- Assignment `ref = v` through the reference returned by `operator[]` or `value()`. -/
def assign (t : trie K V) (node : pointer) (v : V) : trie K V :=
  { t with _root := trie_node.assign t._root node v }

/-- Read `value()` of the node a position refers to. -/
def value (t : trie K V) (node : pointer) : Option V :=
  trie_node.value t._root node

/-- Read `key()` of the node a position refers to. -/
def key (t : trie K V) (node : pointer) : Except error (List K) :=
  trie_node.key t._root node

/-- Member `find(key)` (trie.h 448-451). -/
def find (t : trie K V) (key : List K) : Except error trie_iterator :=
  trie_node.find t._root_alphabet t._root [] key

/-- Member `has(key)` (trie.h 453-456). -/
def has (t : trie K V) (key : List K) : Except error Bool :=
  trie_node.has t._root_alphabet t._root [] key

/-- Member `erase(key)` (trie.h 458-461). -/
def erase [Inhabited V] (t : trie K V) (key : List K) : trie K V × Except error Nat :=
  match trie_node.remove t._root_alphabet t._root [] key with
  | (root1, .error e) => ({ t with _root := root1 }, .error e)
  | (root1, .ok b) => ({ t with _root := root1 }, .ok (if b then 1 else 0))

/-- Member `erase(pos)` (trie.h 463-467): `curr = pos++`, `curr->erase()`, `return pos`. -/
def erase_at [Inhabited V] (t : trie K V) (fuel : Nat) (pos : trie_iterator) :
    trie K V × Except error trie_iterator :=
  match trie_iterator.incr t fuel pos with
  | .error e => (t, .error e)
  | .ok next =>
    match pos with
    | none => (t, .error .undefined_behaviour)
    | some curr =>
      match trie_node.erase t._root_alphabet t._root curr with
      | (root1, .error e) => ({ t with _root := root1 }, .error e)
      | (root1, .ok _) => ({ t with _root := root1 }, .ok next)

/-- Member `erase(first, last)` (trie.h 469-474); one unit of `rounds` per turn of the loop. -/
def erase_range [Inhabited V] (fuel : Nat) (last : trie_iterator) :
    Nat → trie K V → trie_iterator → trie K V × Except error trie_iterator
  | 0, t, _ => (t, .error .out_of_fuel)
  | rounds + 1, t, it =>
    if it = last then (t, .ok it)
    else
      match erase_at t fuel it with
      | (t1, .error e) => (t1, .error e)
      | (t1, .ok it1) => erase_range fuel last rounds t1 it1

/-- Member `clear()` (trie.h 476-478): the root is assigned a default-constructed node, whose
`_alphabet` is null. -/
def clear [Inhabited K] [Inhabited V] (t : trie K V) : trie K V :=
  { t with _root := trie_node.empty, _root_alphabet := none }

/-- Member `size()` (trie.h 480-484). -/
def size (t : trie K V) : Except error Nat := trie_node.size t._root

/-- Member `begin()` (trie.h 486-489). -/
def begin (t : trie K V) (fuel : Nat) : Except error trie_iterator :=
  match trie_node.successor t._root_alphabet t._root fuel [] 0 with
  | .error e => .error e
  | .ok node => .ok (some node)

/-- Member `end()` (trie.h 491-493). -/
def end_ (_t : trie K V) : trie_iterator := some []

/-- The loop `for (it = first; it != last; ++it)` collecting `*it`; one unit of `rounds` per
turn. -/
def forward_loop (t : trie K V) (fuel : Nat) (last : trie_iterator) :
    Nat → trie_iterator → Except error (List pointer)
  | 0, _ => .error .out_of_fuel
  | rounds + 1, it =>
    if it = last then .ok []
    else
      match trie_iterator.deref it with
      | .error e => .error e
      | .ok node =>
        match trie_iterator.incr t fuel it with
        | .error e => .error e
        | .ok it1 =>
          match forward_loop t fuel last rounds it1 with
          | .error e => .error e
          | .ok rest => .ok (node :: rest)

/-- Forward iteration `for (auto &x : trie)`: from `begin()` until `end()`. -/
def forward (t : trie K V) (fuel rounds : Nat) : Except error (List pointer) :=
  match begin t fuel with
  | .error e => .error e
  | .ok first => forward_loop t fuel (end_ t) rounds first

/-- The loop `for (; start != end; ++start)` over `std::reverse_iterator`: a reverse iterator
holds a forward iterator `current`, `*start` is `*--tmp` for a copy `tmp` of `current`, and
`++start` is `--current`. -/
def reverse_loop (t : trie K V) (fuel : Nat) (last : trie_iterator) :
    Nat → trie_iterator → Except error (List pointer)
  | 0, _ => .error .out_of_fuel
  | rounds + 1, current =>
    if current = last then .ok []
    else
      match trie_iterator.decr t fuel current with
      | .error e => .error e
      | .ok tmp =>
        match trie_iterator.deref tmp with
        | .error e => .error e
        | .ok node =>
          match reverse_loop t fuel last rounds tmp with
          | .error e => .error e
          | .ok rest => .ok (node :: rest)

/-- Reverse iteration from `rbegin()`, which wraps `end()`, until `rend()`, which wraps
`begin()` (trie.h 495-501). -/
def reverse (t : trie K V) (fuel rounds : Nat) : Except error (List pointer) :=
  match begin t fuel with
  | .error e => .error e
  | .ok first => reverse_loop t fuel first rounds (end_ t)

end trie

end Trie

namespace Trie

namespace alphabet

variable {K : Type}

/-- A comparator as `std::set` and `std::sort` require it, a strict weak order: nothing is before
itself, the order is transitive, and what is before `b` is before `c` or has `c` before `b`. -/
def strict_weak_order (compare : K → K → Bool) : Prop :=
  (∀ a, compare a a = false) ∧
  (∀ a b c, compare a b = true → compare b c = true → compare a c = true) ∧
  (∀ a b c, compare a b = true → compare a c = true ∨ compare c b = true)

/-- Two symbols are equivalent under the comparator: neither is before the other. -/
def equivalent (compare : K → K → Bool) (a b : K) : Bool :=
  !compare a b && !compare b a

end alphabet

namespace trie_node

variable {K V : Type}

/-- The alphabet indices of the symbols of a key, by `index_of` on each symbol; it fails when
a symbol is not in the alphabet.  The result is the position the key leads to. -/
def key_indices (a : Option (alphabet K)) : List K → Except error pointer
  | [] => .ok []
  | k :: ks =>
    match index_of a k with
    | .error e => .error e
    | .ok i =>
      match key_indices a ks with
      | .error e => .error e
      | .ok p => .ok (i :: p)

/-- Whether a node is at the position and its `_nodes` is indeterminate: the node was made by
`new` and its `_nodes` has not been written since. -/
def uninitialised (root : trie_node K V) (p : pointer) : Bool :=
  match node_at root p with
  | some (mk _ _ .indeterminate) => true
  | _ => false

/-- Whether a node is at the position, carries no value and owns no node: a dead node when the
position is not the root. -/
def dead (root : trie_node K V) (p : pointer) (slots : Nat) : Bool :=
  match node_at root p with
  | none => false
  | some n => !n._value.1 && !(List.range slots).any (fun i => (child n i).isSome)

mutual
/-- The graph with the null pointer in place of every indeterminate `_nodes`: the graph as the
member functions meet it in a run in which the storage of every new node happened to hold
zero.  (Such a run is still undefined in the source; the states built with `settle` serve only to
show defects that are there even then.) -/
def settle : trie_node K V → trie_node K V
  | mk v k .null => mk v k .null
  | mk v k .indeterminate => mk v k .null
  | mk v k (.array cs) => mk v k (.array (settle_children cs))
/-- The slots of a child array, settled. -/
def settle_children : List (Option (trie_node K V)) → List (Option (trie_node K V))
  | [] => []
  | none :: cs => none :: settle_children cs
  | some c :: cs => some (settle c) :: settle_children cs
end

/-- The loop of `traverse_and_create` in a run in which the `_nodes` of every new node happens
to hold the null pointer: the graph is settled after every call of `get_or_create_node`. -/
def traverse_and_create_settled [Inhabited V] (a : Option (alphabet K)) :
    trie_node K V → pointer → List K → trie_node K V × Except error pointer
  | root, next, [] => (root, .ok next)
  | root, next, k :: ks =>
    match get_or_create_node a root next k with
    | (root1, .error e) => (root1, .error e)
    | (root1, .ok node) => traverse_and_create_settled a (settle root1) node ks

end trie_node

namespace trie

variable {K V : Type}

/-- The alphabet indices of a key in the alphabet of the container. -/
def key_indices (t : trie K V) (key : List K) : Except error pointer :=
  trie_node.key_indices (some t._alphabet) key

/-- Whether every symbol of the key is in the alphabet of the container. -/
def over_alphabet (t : trie K V) (key : List K) : Bool :=
  match t.key_indices key with
  | .ok _ => true
  | .error _ => false

/-- The statement `trie[key] = v`: the container it leaves, also when `operator[]` does not
return. -/
def insert [Inhabited V] (t : trie K V) (key : List K) (v : V) : trie K V :=
  match t.subscript key with
  | (t1, .ok p) => t1.assign p v
  | (t1, .error _) => t1

/-- The statement `trie[key] = v` in a run in which the `_nodes` of every new node happens to
hold the null pointer. -/
def insert_settled [Inhabited V] (t : trie K V) (key : List K) (v : V) : trie K V :=
  match trie_node.traverse_and_create_settled t._root_alphabet t._root [] key with
  | (root1, .error _) => { t with _root := root1 }
  | (root1, .ok node) =>
    let root2 :=
      trie_node.update_at root1 node (fun n => trie_node.set_value n (true, n._value.2))
    { t with _root := trie_node.assign root2 node v }

/-- The loop `while (trie.begin() != trie.end()) trie.erase(trie.begin())`, with the positions
handed to `erase` in the order of the calls; one unit of `rounds` per turn. -/
def erase_from_begin [Inhabited V] (fuel : Nat) :
    Nat → trie K V → trie K V × Except error (List trie_iterator)
  | 0, t => (t, .error .out_of_fuel)
  | rounds + 1, t =>
    match t.begin fuel with
    | .error e => (t, .error e)
    | .ok first =>
      if first = t.end_ then (t, .ok [])
      else
        match t.erase_at fuel first with
        | (t1, .error e) => (t1, .error e)
        | (t1, .ok _) =>
          match erase_from_begin fuel rounds t1 with
          | (t2, .error e) => (t2, .error e)
          | (t2, .ok erased) => (t2, .ok (first :: erased))

/-- The alphabet of the examples: the symbols of `"polar"` under the default order of `char`,
as the constructor of `alphabet` stores them. -/
def example_alphabet : alphabet Char := ⟨fun x y => decide (x < y), ['a', 'l', 'o', 'p', 'r']⟩

/-- The container `trie<char, int>` over the example alphabet, as constructed. -/
def example_empty : trie Char Int := ⟨trie_node.empty, example_alphabet, some example_alphabet⟩

/-- The example container after `trie["p"] = 1`. -/
def example_p : trie Char Int := insert example_empty ['p'] 1

/-- The example container after `trie["p"] = 1` and `trie["a"] = 2`. -/
def example_a_p : trie Char Int := insert example_p ['a'] 2

/-- The example container after `trie["p"] = 1` and `trie["r"] = 2`. -/
def example_p_r : trie Char Int := insert example_p ['r'] 2

/-- The example container after `trie[""] = 7`. -/
def example_empty_key : trie Char Int := insert example_empty [] 7

/-- The comparator `iless` of the tests: `toupper(left) < toupper(right)`. -/
def iless (left right : Char) : Bool := decide (left.toUpper < right.toUpper)

/-- The alphabet the constructor builds from `"polarPOLAR"` under `iless`: the set keeps the
first symbol of every class. -/
def example_alphabet_iless : alphabet Char := ⟨iless, ['a', 'l', 'o', 'p', 'r']⟩

/-- The container `trie<char, int, iless>` over `"polarPOLAR"`, as constructed. -/
def example_empty_iless : trie Char Int :=
  ⟨trie_node.empty, example_alphabet_iless, some example_alphabet_iless⟩

/-- The container in which `trie["polar"] = 5` leaves the example container in a run in which
the `_nodes` of every new node happens to hold the null pointer. -/
def example_polar : trie Char Int :=
  insert_settled example_empty ['p', 'o', 'l', 'a', 'r'] 5

/-- The container in which `trie["p"] = 1` and `trie["po"] = 2` leave the example container in
a run in which the `_nodes` of every new node happens to hold the null pointer. -/
def example_p_po : trie Char Int :=
  insert_settled (insert_settled example_empty ['p'] 1) ['p', 'o'] 2

end trie

end Trie

namespace Trie

namespace alphabet

variable {K : Type}

/-! ### Comparators and the search in the alphabet -/

theorem equivalent_iff (compare : K → K → Bool) (a b : K) :
    equivalent compare a b = true ↔ compare a b = false ∧ compare b a = false := by
  simp [equivalent]

theorem equivalent_refl {compare : K → K → Bool} (h : strict_weak_order compare) (a : K) :
    equivalent compare a a = true := by
  rw [equivalent_iff]; exact ⟨h.1 a, h.1 a⟩

theorem equivalent_symm {compare : K → K → Bool} {a b : K}
    (hab : equivalent compare a b = true) : equivalent compare b a = true := by
  rw [equivalent_iff] at hab ⊢; exact ⟨hab.2, hab.1⟩

theorem compare_asymm {compare : K → K → Bool} (h : strict_weak_order compare) {a b : K}
    (hab : compare a b = true) : compare b a = false := by
  cases hba : compare b a with
  | false => rfl
  | true =>
    have := h.2.1 a b a hab hba
    rw [h.1 a] at this; cases this

/-- Equivalent symbols compare alike on the right. -/
theorem compare_congr_right {compare : K → K → Bool} (h : strict_weak_order compare) {a b : K}
    (hab : equivalent compare a b = true) (x : K) : compare x a = compare x b := by
  rw [equivalent_iff] at hab
  cases hxa : compare x a with
  | true =>
    rcases h.2.2 x a b hxa with h1 | h1
    · exact h1.symm
    · rw [hab.2] at h1; cases h1
  | false =>
    cases hxb : compare x b with
    | false => rfl
    | true =>
      rcases h.2.2 x b a hxb with h1 | h1
      · rw [hxa] at h1; cases h1
      · rw [hab.1] at h1; cases h1

/-- Equivalent symbols compare alike on the left. -/
theorem compare_congr_left {compare : K → K → Bool} (h : strict_weak_order compare) {a b : K}
    (hab : equivalent compare a b = true) (x : K) : compare a x = compare b x := by
  rw [equivalent_iff] at hab
  cases hax : compare a x with
  | true =>
    rcases h.2.2 a x b hax with h1 | h1
    · rw [hab.1] at h1; cases h1
    · exact h1.symm
  | false =>
    cases hbx : compare b x with
    | false => rfl
    | true =>
      rcases h.2.2 b x a hbx with h1 | h1
      · rw [hab.2] at h1; cases h1
      · rw [hax] at h1; cases h1

theorem equivalent_trans {compare : K → K → Bool} (h : strict_weak_order compare) {a b c : K}
    (hab : equivalent compare a b = true) (hbc : equivalent compare b c = true) :
    equivalent compare a c = true := by
  have h1 := compare_congr_left h hab c
  have h2 := compare_congr_right h hab c
  rw [equivalent_iff] at hbc ⊢
  exact ⟨by rw [h1]; exact hbc.1, by rw [h2]; exact hbc.2⟩

/-- The order of a key function into a linear order is a strict weak order: the comparators
`std::less` and `iless` are of this kind. -/
theorem strict_weak_order_of_lt {L : Type} [LinearOrder L] (f : K → L) :
    strict_weak_order (fun a b => decide (f a < f b)) := by
  refine ⟨?_, ?_, ?_⟩
  · intro a; simp
  · intro a b c hab hbc
    simp only [decide_eq_true_eq] at hab hbc ⊢
    exact lt_trans hab hbc
  · intro a b c hab
    simp only [decide_eq_true_eq] at hab ⊢
    rcases lt_or_le (f a) (f c) with h1 | h1
    · exact Or.inl h1
    · exact Or.inr (lt_of_le_of_lt h1 hab)

/-- The search takes the same way for equivalent symbols. -/
theorem binary_search_congr (al : alphabet K) (h : strict_weak_order al._compare) {a b : K}
    (hab : equivalent al._compare a b = true) :
    ∀ fuel min max, al.binary_search fuel min max a = al.binary_search fuel min max b := by
  intro fuel
  induction fuel with
  | zero => intro min max; rfl
  | succ fuel ih =>
    intro min max
    simp only [binary_search]
    split
    · rfl
    · cases al._alpha[(min + max) / 2]? with
      | none => rfl
      | some x =>
        simp only
        rw [compare_congr_right h hab x, compare_congr_left h hab x, ih, ih]

theorem index_of_congr (al : alphabet K) (h : strict_weak_order al._compare) {a b : K}
    (hab : equivalent al._compare a b = true) : al.index_of a = al.index_of b :=
  binary_search_congr al h hab _ _ _

/-- An index the search returns is the index of an entry equivalent to the symbol. -/
theorem binary_search_equivalent (al : alphabet K) (ch : K) :
    ∀ (fuel min max : Nat) (r : Int), al.binary_search fuel min max ch = .ok r → 0 ≤ r →
      ∃ x, al._alpha[r.toNat]? = some x ∧ equivalent al._compare x ch = true := by
  intro fuel
  induction fuel with
  | zero => intro min max r h; simp [binary_search] at h
  | succ fuel ih =>
    intro min max r h hr
    simp only [binary_search] at h
    split at h
    · cases h; omega
    · cases hx : al._alpha[(min + max) / 2]? with
      | none => simp [hx] at h
      | some x =>
        simp only [hx] at h
        split at h
        · exact ih _ _ r h hr
        · split at h
          · exact ih _ _ r h hr
          · rename_i h1 h2
            cases h
            refine ⟨x, by simpa using hx, ?_⟩
            rw [equivalent_iff]
            exact ⟨by simpa using h1, by simpa using h2⟩

/-- The search in a strictly ascending vector: the index of an entry equivalent to the symbol is
returned when there is one in the interval, and `-1` when there is none. -/
theorem binary_search_spec (al : alphabet K) (h : strict_weak_order al._compare)
    (hs : al._alpha.Pairwise (fun x y => al._compare x y = true)) (ch : K) :
    ∀ (fuel min max : Nat), max ≤ al.size → max - min < fuel →
      (∀ i x, min ≤ i → i < max → al._alpha[i]? = some x →
        equivalent al._compare x ch = true → al.binary_search fuel min max ch = .ok (i : Int)) ∧
      ((∀ i x, min ≤ i → i < max → al._alpha[i]? = some x →
        equivalent al._compare x ch = false) → al.binary_search fuel min max ch = .ok (-1)) := by
  have hlt : ∀ (i j : Nat) (x y : K), i < j → al._alpha[i]? = some x →
      al._alpha[j]? = some y → al._compare x y = true := by
    intro i j x y hij hx hy
    rw [List.pairwise_iff_getElem] at hs
    have hi : i < al._alpha.length := by
      by_contra hn; rw [List.getElem?_eq_none (by omega)] at hx; cases hx
    have hj : j < al._alpha.length := by
      by_contra hn; rw [List.getElem?_eq_none (by omega)] at hy; cases hy
    rw [List.getElem?_eq_getElem hi] at hx
    rw [List.getElem?_eq_getElem hj] at hy
    cases hx; cases hy
    exact hs i j hi hj hij
  intro fuel
  induction fuel with
  | zero => intro min max _ hf; omega
  | succ fuel ih =>
    intro min max hmax hfuel
    simp only [binary_search]
    by_cases hmm : min ≥ max
    · rw [if_pos hmm]
      exact ⟨fun i x h1 h2 => by omega, fun _ => rfl⟩
    · rw [if_neg hmm]
      have hmid : (min + max) / 2 < al._alpha.length := by
        unfold size at hmax; omega
      have hx : al._alpha[(min + max) / 2]? = some (al._alpha[(min + max) / 2]) :=
        List.getElem?_eq_getElem hmid
      generalize al._alpha[(min + max) / 2] = x at hx
      rw [hx]
      simp only
      by_cases h1 : al._compare x ch = true
      · rw [if_pos h1]
        obtain ⟨ih1, ih2⟩ := ih ((min + max) / 2 + 1) max hmax (by omega)
        refine ⟨?_, ?_⟩
        · intro i y hi1 hi2 hy hyc
          apply ih1 i y _ hi2 hy hyc
          by_contra hle
          rw [equivalent_iff] at hyc
          rcases Nat.lt_or_ge i ((min + max) / 2) with hlt1 | hge
          · have := h.2.1 y x ch (hlt i _ y x hlt1 hy hx) h1
            rw [hyc.1] at this; cases this
          · have hie : i = (min + max) / 2 := by omega
            subst hie
            rw [hx] at hy; cases hy
            rw [hyc.1] at h1; cases h1
        · intro hno
          exact ih2 (fun i y hi1 hi2 => hno i y (by omega) hi2)
      · rw [if_neg h1]
        by_cases h2 : al._compare ch x = true
        · rw [if_pos h2]
          obtain ⟨ih1, ih2⟩ := ih min ((min + max) / 2) (by omega) (by omega)
          refine ⟨?_, ?_⟩
          · intro i y hi1 hi2 hy hyc
            apply ih1 i y hi1 _ hy hyc
            by_contra hle
            rw [equivalent_iff] at hyc
            rcases Nat.lt_or_ge ((min + max) / 2) i with hlt1 | hge
            · have := h.2.1 ch x y h2 (hlt _ i x y hlt1 hx hy)
              rw [hyc.2] at this; cases this
            · have hie : i = (min + max) / 2 := by omega
              subst hie
              rw [hx] at hy; cases hy
              rw [hyc.2] at h2; cases h2
          · intro hno
            exact ih2 (fun i y hi1 hi2 => hno i y hi1 (by omega))
        · rw [if_neg h2]
          have hxc : equivalent al._compare x ch = true := by
            rw [equivalent_iff]
            exact ⟨by simpa using h1, by simpa using h2⟩
          refine ⟨?_, ?_⟩
          · intro i y hi1 hi2 hy hyc
            rcases Nat.lt_trichotomy i ((min + max) / 2) with hlt1 | heq | hgt
            · have hc := hlt i _ y x hlt1 hy hx
              rw [compare_congr_right h hxc y] at hc
              rw [equivalent_iff] at hyc
              rw [hyc.1] at hc; cases hc
            · subst heq; rfl
            · have hc := hlt _ i x y hgt hx hy
              rw [compare_congr_left h hxc y] at hc
              rw [equivalent_iff] at hyc
              rw [hyc.2] at hc; cases hc
          · intro hno
            have := hno _ x (by omega) (by omega) hx
            rw [hxc] at this; cases this

end alphabet

end Trie

namespace Trie

namespace alphabet

variable {K : Type}

/-! ### The constructor of the alphabet -/

theorem set_insert_mem (compare : K → K → Bool) (s : List K) (x y : K)
    (h : y ∈ set_insert compare s x) : y ∈ s ∨ y = x := by
  induction s with
  | nil => simp [set_insert] at h; exact Or.inr h
  | cons z zs ih =>
    simp only [set_insert] at h
    split at h
    · rcases List.mem_cons.1 h with h1 | h1
      · exact Or.inr h1
      · exact Or.inl h1
    · split at h
      · rcases List.mem_cons.1 h with h1 | h1
        · exact Or.inl (by simp [h1])
        · rcases ih h1 with h2 | h2
          · exact Or.inl (List.mem_cons_of_mem _ h2)
          · exact Or.inr h2
      · exact Or.inl h

theorem mem_set_insert_of_mem (compare : K → K → Bool) (s : List K) (x y : K) (h : y ∈ s) :
    y ∈ set_insert compare s x := by
  induction s with
  | nil => simp at h
  | cons z zs ih =>
    simp only [set_insert]
    split
    · exact List.mem_cons_of_mem _ h
    · split
      · rcases List.mem_cons.1 h with h1 | h1
        · simp [h1]
        · exact List.mem_cons_of_mem _ (ih h1)
      · exact h

theorem set_insert_has_equivalent {compare : K → K → Bool} (hswo : strict_weak_order compare)
    (s : List K) (x : K) : ∃ y ∈ set_insert compare s x, equivalent compare y x = true := by
  induction s with
  | nil => exact ⟨x, by simp [set_insert], equivalent_refl hswo x⟩
  | cons z zs ih =>
    simp only [set_insert]
    split
    · exact ⟨x, by simp, equivalent_refl hswo x⟩
    · split
      · obtain ⟨y, hy, hyx⟩ := ih
        exact ⟨y, List.mem_cons_of_mem _ hy, hyx⟩
      · rename_i h1 h2
        refine ⟨z, by simp, ?_⟩
        rw [equivalent_iff]
        exact ⟨by simpa using h2, by simpa using h1⟩

theorem set_insert_sorted {compare : K → K → Bool} (hswo : strict_weak_order compare)
    (s : List K) (x : K) (hs : s.Pairwise (fun a b => compare a b = true)) :
    (set_insert compare s x).Pairwise (fun a b => compare a b = true) := by
  induction s with
  | nil => simp [set_insert]
  | cons z zs ih =>
    rw [List.pairwise_cons] at hs
    simp only [set_insert]
    split
    · rename_i h1
      rw [List.pairwise_cons]
      refine ⟨?_, List.pairwise_cons.2 hs⟩
      intro a ha
      rcases List.mem_cons.1 ha with h2 | h2
      · rw [h2]; exact h1
      · exact hswo.2.1 x z a h1 (hs.1 a h2)
    · split
      · rename_i h1 h2
        rw [List.pairwise_cons]
        refine ⟨?_, ih hs.2⟩
        intro a ha
        rcases set_insert_mem compare zs x a ha with h3 | h3
        · exact hs.1 a h3
        · rw [h3]; exact h2
      · exact List.pairwise_cons.2 hs

/-- The set the constructor collects the symbols in: strictly ascending, of input symbols only,
and with an entry equivalent to every input symbol. -/
theorem foldl_set_insert_spec {compare : K → K → Bool} (hswo : strict_weak_order compare)
    (alpha : List K) :
    ∀ acc : List K, acc.Pairwise (fun a b => compare a b = true) →
      (alpha.foldl (set_insert compare) acc).Pairwise (fun a b => compare a b = true) ∧
      (∀ x ∈ alpha.foldl (set_insert compare) acc, x ∈ acc ∨ x ∈ alpha) ∧
      (∀ x ∈ acc, x ∈ alpha.foldl (set_insert compare) acc) ∧
      (∀ s ∈ alpha, ∃ x ∈ alpha.foldl (set_insert compare) acc,
        equivalent compare x s = true) := by
  induction alpha with
  | nil =>
    intro acc hacc
    exact ⟨hacc, fun x hx => Or.inl hx, fun x hx => hx, fun s hs => by simp at hs⟩
  | cons a rest ih =>
    intro acc hacc
    obtain ⟨h1, h2, h3, h4⟩ := ih (set_insert compare acc a) (set_insert_sorted hswo acc a hacc)
    simp only [List.foldl_cons]
    refine ⟨h1, ?_, ?_, ?_⟩
    · intro x hx
      rcases h2 x hx with h5 | h5
      · rcases set_insert_mem compare acc a x h5 with h6 | h6
        · exact Or.inl h6
        · exact Or.inr (by simp [h6])
      · exact Or.inr (List.mem_cons_of_mem _ h5)
    · intro x hx
      exact h3 x (mem_set_insert_of_mem compare acc a x hx)
    · intro s hs
      rcases List.mem_cons.1 hs with h5 | h5
      · obtain ⟨y, hy, hya⟩ := set_insert_has_equivalent hswo acc a
        exact ⟨y, h3 y hy, by rw [h5]; exact hya⟩
      · exact h4 s h5

/-- The alphabet the constructor builds under a strict weak order: the comparator is kept, the
vector is strictly ascending, its entries are input symbols, and every input symbol has an
equivalent entry. -/
theorem construct_spec {compare : K → K → Bool} (hswo : strict_weak_order compare)
    {key_bits : Nat} {alpha : List K} {al : alphabet K}
    (h : construct compare key_bits alpha = .ok al) :
    al._compare = compare ∧
    al._alpha.Pairwise (fun a b => compare a b = true) ∧
    (∀ x ∈ al._alpha, x ∈ alpha) ∧
    (∀ s ∈ alpha, ∃ x ∈ al._alpha, equivalent compare x s = true) := by
  obtain ⟨h1, h2, -, h4⟩ := foldl_set_insert_spec hswo alpha [] List.Pairwise.nil
  unfold construct at h
  simp only at h
  split at h
  · cases h
  · cases h
    simp only
    have hsort : (List.foldl (set_insert compare) [] alpha).insertionSort
        (fun x y => compare x y = true) = List.foldl (set_insert compare) [] alpha :=
      List.Sorted.insertionSort_eq h1
    rw [hsort]
    refine ⟨by trivial, h1, ?_, h4⟩
    intro x hx
    rcases h2 x hx with h5 | h5
    · simp at h5
    · exact h5

/-- Member `index_of` on a strictly ascending vector under a strict weak order: the index of
the entry equivalent to the symbol when there is one, `-1` when there is none. -/
theorem index_of_spec (al : alphabet K) (h : strict_weak_order al._compare)
    (hs : al._alpha.Pairwise (fun x y => al._compare x y = true)) (ch : K) :
    (∀ (i : Nat) (x : K), al._alpha[i]? = some x → equivalent al._compare x ch = true →
      al.index_of ch = .ok (i : Int)) ∧
    ((∀ x ∈ al._alpha, equivalent al._compare x ch = false) → al.index_of ch = .ok (-1)) := by
  obtain ⟨h1, h2⟩ := binary_search_spec al h hs ch (al.size + 1) 0 al.size (le_refl _) (by omega)
  refine ⟨?_, ?_⟩
  · intro i x hx hxc
    have hi : i < al.size := by
      unfold size
      by_contra hn
      rw [List.getElem?_eq_none (by omega)] at hx; cases hx
    exact h1 i x (Nat.zero_le _) hi hx hxc
  · intro hno
    apply h2
    intro i x _ _ hx
    exact hno x (List.getElem?_mem hx)

/-- Member `value_of` for an index inside the vector. -/
theorem value_of_lt (al : alphabet K) (i : Nat) (hi : i < al.size) :
    ∃ x, al._alpha[i]? = some x ∧ al.value_of (i : Int) = .ok x := by
  unfold size at hi
  refine ⟨al._alpha[i], List.getElem?_eq_getElem hi, ?_⟩
  unfold value_of
  have : ¬ ((i : Int) < 0 ∨ (i : Int) > (al._alpha.length : Int)) := by omega
  rw [if_neg this]
  simp [List.getElem?_eq_getElem hi]

/-- A comparator that is the strict order of a linearly ordered image is a strict weak order. -/
theorem strict_weak_order_of_iff {L : Type} [LinearOrder L] (f : K → L)
    (compare : K → K → Bool) (h : ∀ a b, compare a b = true ↔ f a < f b) :
    strict_weak_order compare := by
  refine ⟨?_, ?_, ?_⟩
  · intro a
    cases hc : compare a a with
    | false => rfl
    | true => exact absurd ((h a a).1 hc) (lt_irrefl _)
  · intro a b c hab hbc
    exact (h a c).2 (lt_trans ((h a b).1 hab) ((h b c).1 hbc))
  · intro a b c hab
    rcases lt_or_le (f a) (f c) with h1 | h1
    · exact Or.inl ((h a c).2 h1)
    · exact Or.inr ((h c b).2 (lt_of_le_of_lt h1 ((h a b).1 hab)))

end alphabet

end Trie

namespace Trie

namespace trie_node

variable {K V : Type}

/-- Field `_value` of a node given by its fields. -/
@[simp] theorem value_mk (v : Bool × V) (k : K) (ns) : (mk v k ns)._value = v := rfl
/-- Field `_key` of a node given by its fields. -/
@[simp] theorem key_mk (v : Bool × V) (k : K) (ns) : (mk v k ns)._key = k := rfl
/-- Field `_nodes` of a node given by its fields. -/
@[simp] theorem nodes_mk (v : Bool × V) (k : K) (ns) : (mk v k ns)._nodes = ns := rfl

/-- The `_nodes` of a node made by `new` is indeterminate. -/
@[simp] theorem nodes_create [Inhabited V] (k : K) :
    (create k : trie_node K V)._nodes = .indeterminate := rfl

/-- Every index `binary_search` returns lies in the searched interval. -/
theorem alphabet_binary_search_lt (al : alphabet K) (fuel min max : Nat) (ch : K) (r : Int)
    (h : al.binary_search fuel min max ch = .ok r) (h0 : 0 ≤ r) : r < max := by
  induction fuel generalizing min max with
  | zero => simp [alphabet.binary_search] at h
  | succ fuel ih =>
    simp only [alphabet.binary_search] at h
    split at h
    · cases h; omega
    · rename_i hlt
      split at h
      · cases h
      · split at h
        · exact ih _ _ h
        · split at h
          · have := ih _ _ h; omega
          · cases h
            simp only [Int.ofNat_eq_coe, Nat.cast_lt]
            omega

/-- An index returned by `index_of` addresses a slot of a child array. -/
theorem index_of_lt {al : alphabet K} {k : K} {i : Nat} (h : index_of (some al) k = .ok i) :
    i < al.size := by
  simp only [index_of, alphabet.index_of] at h
  cases hb : al.binary_search (al.size + 1) 0 al.size k with
  | error e => simp [hb] at h
  | ok r =>
    simp only [hb] at h
    split at h
    · cases h
    · cases h
      have := alphabet_binary_search_lt al _ _ _ _ _ hb (by omega)
      omega

/-- The first call of `get_or_create_node` on a root as constructed, for a symbol of the
alphabet: it allocates the child array and creates the node of the symbol in its slot, with an
indeterminate `_nodes`. -/
theorem get_or_create_node_empty [Inhabited K] [Inhabited V] (al : alphabet K) (k : K) (i : Nat)
    (hi : index_of (some al) k = .ok i) :
    get_or_create_node (some al) (empty : trie_node K V) [] k =
      (mk (false, default) default
        (.array ((List.replicate al.size none).set i (some (create k)))), .ok [i]) := by
  have hlt := index_of_lt hi
  have hslot : slot (List.replicate al.size (none : Option (trie_node K V))) i = none := by
    simp [slot, List.getElem?_replicate, hlt]
  simp [get_or_create_node, node_at, init_nodes, empty, update_at, hi, child, hslot, set_child]

/-- The second call of `get_or_create_node` of a run of `operator[]` on a container as
constructed reads the indeterminate `_nodes` of the node the first call created. -/
theorem get_or_create_node_new_node [Inhabited K] [Inhabited V] (al : alphabet K) (k1 k2 : K)
    (i : Nat) (hlt : i < al.size) :
    get_or_create_node (some al)
        (mk (false, default) default
          (.array ((List.replicate al.size none).set i (some (create k1)))) : trie_node K V)
        [i] k2 =
      (mk (false, default) default
        (.array ((List.replicate al.size none).set i (some (create k1)))),
        .error .undefined_behaviour) := by
  have hslot : slot ((List.replicate al.size (none : Option (trie_node K V))).set i
      (some (create k1))) i = some (create k1) := by
    simp [slot, hlt]
  simp [get_or_create_node, node_at, child, hslot, init_nodes]

end trie_node

namespace trie

variable {K V : Type}

/-- On every container as constructed, `operator[]` of every key of two or more symbols whose
first symbol is in the alphabet is undefined: the second turn of the loop of
`traverse_and_create` calls `init_nodes()` on the node the first turn created, whose `_nodes` is
indeterminate. -/
theorem subscript_of_longer_key_undefined [Inhabited K] [Inhabited V] (compare : K → K → Bool)
    (key_bits : Nat) (alpha : List K) (t0 : trie K V)
    (h0 : construct compare key_bits alpha = .ok t0) (k1 k2 : K) (rest : List K) (i : Nat)
    (hi : trie_node.index_of (some t0._alphabet) k1 = .ok i) :
    (t0.subscript (k1 :: k2 :: rest)).2 = .error .undefined_behaviour := by
  unfold construct at h0
  split at h0
  · cases h0
  · rename_i al hal
    cases h0
    simp only at hi
    have hlt := trie_node.index_of_lt hi
    simp only [subscript, trie_node.subscript, trie_node.traverse_and_create,
      trie_node.get_or_create_node_empty al k1 i hi,
      trie_node.get_or_create_node_new_node al k1 k2 i hlt]

end trie

end Trie

namespace Trie

namespace alphabet

variable {K : Type}

/-- C16 (`index_of` is a correct search over the constructed alphabet). For every strict weak
order `compare` and every input sequence `alpha` from which the constructor builds an alphabet
`al`: the vector of `al` is strictly ascending, its entries are input symbols, every input symbol
has an equivalent entry, and two equivalent entries are the same entry (one representative per
class); for every symbol `s`, `index_of(s)` is the index of the entry equivalent to `s` when there
is one and `-1` when there is none; and `index_of(value_of(i))` is `i` for every index `i` below
`size()`. -/
theorem index_of_correct (compare : K → K → Bool) (hswo : strict_weak_order compare)
    (key_bits : Nat) (alpha : List K) (al : alphabet K)
    (h : construct compare key_bits alpha = .ok al) :
    al._alpha.Pairwise (fun a b => compare a b = true) ∧
    (∀ x ∈ al._alpha, x ∈ alpha) ∧
    (∀ s ∈ alpha, ∃ x ∈ al._alpha, equivalent compare x s = true) ∧
    (∀ (i j : Nat) (x y : K), al._alpha[i]? = some x → al._alpha[j]? = some y →
      equivalent compare x y = true → i = j) ∧
    (∀ (s : K) (i : Nat) (x : K), al._alpha[i]? = some x → equivalent compare x s = true →
      al.index_of s = .ok (i : Int)) ∧
    (∀ s : K, (∀ x ∈ al._alpha, equivalent compare x s = false) → al.index_of s = .ok (-1)) ∧
    (∀ i : Nat, i < al.size → ∃ x, al.value_of (i : Int) = .ok x ∧
      al.index_of x = .ok (i : Int)) := by
  obtain ⟨hc, hs, hin, hrep⟩ := construct_spec hswo h
  have hswo1 : strict_weak_order al._compare := by rw [hc]; exact hswo
  have hs1 : al._alpha.Pairwise (fun x y => al._compare x y = true) := by rw [hc]; exact hs
  have hidx : ∀ (s : K) (i : Nat) (x : K), al._alpha[i]? = some x →
      equivalent compare x s = true → al.index_of s = .ok (i : Int) := by
    intro s i x hx hxs
    exact (index_of_spec al hswo1 hs1 s).1 i x hx (by rw [hc]; exact hxs)
  refine ⟨hs, hin, hrep, ?_, hidx, ?_, ?_⟩
  · intro i j x y hx hy hxy
    have h1 := hidx y i x hx hxy
    have h2 := hidx y j y hy (equivalent_refl hswo y)
    rw [h1] at h2
    simpa using h2
  · intro s hno
    exact (index_of_spec al hswo1 hs1 s).2 (by rw [hc]; exact hno)
  · intro i hi
    obtain ⟨x, hx, hv⟩ := value_of_lt al i hi
    exact ⟨x, hv, hidx x i x hx (equivalent_refl hswo x)⟩

/-- Witness of C16: the alphabet the constructor builds from `"polar"` under the default order
of `char`. -/
theorem index_of_correct_witness :
    strict_weak_order (fun x y : Char => decide (x < y)) ∧
    construct (fun x y : Char => decide (x < y)) 8 ['p', 'o', 'l', 'a', 'r'] =
      .ok trie.example_alphabet ∧
    (∀ i : Nat, i < trie.example_alphabet.size → ∃ x,
      trie.example_alphabet.value_of (i : Int) = .ok x ∧
      trie.example_alphabet.index_of x = .ok (i : Int)) :=
  ⟨strict_weak_order_of_iff id _ (fun a b => by simp), rfl,
    (index_of_correct (fun x y : Char => decide (x < y))
      (strict_weak_order_of_iff id _ (fun a b => by simp)) 8
      ['p', 'o', 'l', 'a', 'r'] trie.example_alphabet rfl).2.2.2.2.2.2⟩

end alphabet

namespace trie

variable {K V : Type}

/-- C3, the code at the failing input: with `"p"` and `"po"` stored, forward iteration visits
`"p"` then `"po"`, and reverse iteration visits `"p"` only: `predecessor` of the root returns the
node of `"p"`, which is `begin()`, so the loop ends without a visit of `"po"`.  (The container is
`example_p_po`, in which the `_nodes` of the new nodes holds the null pointer; with `"a"` and
`"p"` stored by `operator[]` as it is, the second `operator--` of reverse iteration reads the
indeterminate `_nodes` of the node of `"p"` and is undefined.) -/
theorem reverse_iteration_misses_extension :
    example_p_po.forward 100 100 = .ok [[3], [3, 2]] ∧
    example_p_po.reverse 100 100 = .ok [[3]] ∧
    example_a_p.reverse 100 100 = .error .undefined_behaviour := by
  decide

/-- C5, the code at the failing input: with only `"polar"` stored, `has("pol")` is false, yet
`erase("pol")` returns 1 (and removes nothing: `"polar"` is still stored and `size()` is 1).
(The container is `example_polar`, in which the `_nodes` of the new nodes holds the null
pointer.)  The same on the container as constructed, for the empty key: `has("")` is false and
`erase("")` returns 1. -/
theorem erase_of_valueless_node_returns_one :
    example_polar.has ['p', 'o', 'l'] = .ok false ∧
    (example_polar.erase ['p', 'o', 'l']).2 = .ok 1 ∧
    (example_polar.erase ['p', 'o', 'l']).1.has ['p', 'o', 'l', 'a', 'r'] = .ok true ∧
    (example_polar.erase ['p', 'o', 'l']).1.size = .ok 1 ∧
    example_empty.has [] = .ok false ∧
    (example_empty.erase []).2 = .ok 1 := by
  decide

/-- C13, the code at the failing input: after `clear()` on the example container that stores
`"polar"`, `size()` is 0, `has("polar")` is false and `begin()` is `end()`, but the root is no
longer bound to the alphabet: `operator[]("p")` dereferences the null `_alphabet` in
`init_nodes`, where a newly constructed container creates the node.  (The container is
`example_polar`, in which the `_nodes` of the new nodes holds the null pointer; the same holds
after `clear()` on the container that stores `"p"`.) -/
theorem clear_unbinds_alphabet :
    example_polar.clear.size = .ok 0 ∧
    example_polar.clear.has ['p', 'o', 'l', 'a', 'r'] = .ok false ∧
    example_polar.clear.begin 100 = .ok example_polar.clear.end_ ∧
    example_polar.clear._root_alphabet.isSome = false ∧
    (example_polar.clear.subscript ['p']).2 = .error .undefined_behaviour ∧
    (example_empty.subscript ['p']).2 = .ok [3] ∧
    example_p.clear.size = .ok 0 ∧
    example_p.clear.has ['p'] = .ok false ∧
    (example_p.clear.subscript ['p']).2 = .error .undefined_behaviour := by
  decide

/-- C17, the code at the failing input: on the example alphabet of five symbols, `value_of(5)`
passes the test `index > _alpha.size()` and reads `_alpha[5]`, past the end of the vector,
where `value_of(6)` and `value_of(-1)` throw and `value_of(4)` is the last symbol. -/
theorem value_of_cardinality_not_rejected :
    example_alphabet.size = 5 ∧
    example_alphabet.value_of 5 = .error .undefined_behaviour ∧
    example_alphabet.value_of 6 = .error .not_in_alphabet ∧
    example_alphabet.value_of (-1) = .error .not_in_alphabet ∧
    example_alphabet.value_of 4 = .ok 'r' ∧
    (⟨fun x y => decide (x < y), []⟩ : alphabet Char).value_of 0 = .error .undefined_behaviour := by
  decide

/-- C23, the code at the failing input: in the example container that stores `"p"` and `"po"`,
`successor()` of the node of `"p"` is the node of `"po"`, but `predecessor()` of the node of
`"po"` is the root, not the node of `"p"`, and `predecessor()` of the node of `"p"` is the node
of `"po"`, a greater key, not the root; `operator--` of the iterator behaves the same.  (The
container is `example_p_po`, in which the `_nodes` of the new nodes holds the null pointer; with
`"p"` stored by `operator[]` as it is, `predecessor()` of the node of `"p"` reads the
indeterminate `_nodes` of that node and is undefined, where the claim has the root.) -/
theorem predecessor_skips_prefix :
    example_p_po.has ['p'] = .ok true ∧ example_p_po.has ['p', 'o'] = .ok true ∧
    example_p_po.find ['p'] = .ok (some [3]) ∧
    example_p_po.find ['p', 'o'] = .ok (some [3, 2]) ∧
    example_p_po._alphabet.size = 5 ∧
    trie_node.successor example_p_po._root_alphabet example_p_po._root 100 [3] 0 =
      .ok [3, 2] ∧
    trie_node.predecessor example_p_po._root_alphabet example_p_po._root 100 [3, 2] (5 - 1) =
      .ok [] ∧
    trie_node.predecessor example_p_po._root_alphabet example_p_po._root 100 [3] (5 - 1) =
      .ok [3, 2] ∧
    trie_iterator.decr example_p_po 100 (some [3, 2]) = .ok (some []) ∧
    trie_iterator.decr example_p_po 100 (some [3]) = .ok (some [3, 2]) ∧
    trie_iterator.decr example_p 100 (some [3]) = .error .undefined_behaviour := by
  decide

/-- The example container is what the constructor of `trie<char, int>` builds from `"polar"`. -/
theorem example_empty_constructed :
    construct (fun x y => decide (x < y)) 8 ['p', 'o', 'l', 'a', 'r'] = .ok example_empty := rfl

/-- The example container under `iless` is what the constructor of `trie<char, int, iless>`
builds from `"polarPOLAR"`. -/
theorem example_empty_iless_constructed :
    construct iless 8 ['p', 'o', 'l', 'a', 'r', 'P', 'O', 'L', 'A', 'R'] =
      .ok example_empty_iless := rfl

/-- C1, the code at the failing inputs: on every container as constructed, `operator[]` of
every key of two or more symbols whose first symbol is in the alphabet is undefined.  The first
turn of the loop of `traverse_and_create` creates the node of the first symbol, whose `_nodes`
no constructor initialises, and the second turn calls `init_nodes()` on that node, which reads
the indeterminate `_nodes`. -/
theorem insert_of_longer_key_undefined [Inhabited K] [Inhabited V] (compare : K → K → Bool)
    (key_bits : Nat) (alpha : List K) (t0 : trie K V)
    (h0 : construct compare key_bits alpha = .ok t0) (k1 k2 : K) (rest : List K) (i : Nat)
    (hi : trie_node.index_of (some t0._alphabet) k1 = .ok i) :
    (t0.subscript (k1 :: k2 :: rest)).2 = .error .undefined_behaviour :=
  subscript_of_longer_key_undefined compare key_bits alpha t0 h0 k1 k2 rest i hi

/-- Witness of C1: `operator[]("po")` on the example container as constructed, where
`operator[]("p")` returns the new node of `"p"` with an indeterminate `_nodes`; `has("po")` on
what `operator[]("po")` leaves is undefined as well. -/
theorem insert_of_longer_key_undefined_witness :
    construct (fun x y => decide (x < y)) 8 ['p', 'o', 'l', 'a', 'r'] = .ok example_empty ∧
    trie_node.index_of (some example_empty._alphabet) 'p' = .ok 3 ∧
    (example_empty.subscript ['p']).2 = .ok [3] ∧
    trie_node.uninitialised (example_empty.subscript ['p']).1._root [3] = true ∧
    example_empty.over_alphabet ['p', 'o'] = true ∧
    (example_empty.subscript ['p', 'o']).1.has ['p', 'o'] = .error .undefined_behaviour ∧
    (example_empty.subscript ['p', 'o']).2 = .error .undefined_behaviour :=
  ⟨example_empty_constructed, by decide, by decide, by decide, by decide, by decide,
    insert_of_longer_key_undefined (fun x y => decide (x < y)) 8 ['p', 'o', 'l', 'a', 'r']
      example_empty example_empty_constructed 'p' 'o' [] 3 (by decide)⟩

/-- C2, the code at the failing input: with `"p"` stored, `begin()` is the node of `"p"`, and
`operator++` on it reads the indeterminate `_nodes` of that node in `successor_in_children`:
forward iteration from `begin()` to `end()` is undefined. -/
theorem forward_iteration_undefined_at_leaf :
    example_p.has ['p'] = .ok true ∧
    example_p.begin 100 = .ok (some [3]) ∧
    trie_node.uninitialised example_p._root [3] = true ∧
    trie_iterator.incr example_p 100 (some [3]) = .error .undefined_behaviour ∧
    example_p.forward 100 100 = .error .undefined_behaviour := by
  decide

/-- C4, the code at the failing input: with `"p"` and `"r"` stored, `erase("p")` resets the
value of the node of `"p"` and calls `prune`, where `should_prune` reads the indeterminate
`_nodes` of that node: the call is undefined. -/
theorem erase_key_undefined_at_leaf :
    example_p_r.has ['p'] = .ok true ∧ example_p_r.has ['r'] = .ok true ∧
    trie_node.uninitialised example_p_r._root [3] = true ∧
    (example_p_r.erase ['p']).2 = .error .undefined_behaviour := by
  decide

/-- C6, the code at the failing input: `size()` is 0 on the container as constructed and 1 with
only the empty key stored, but with `"p"` stored it reads the indeterminate `_nodes` of the node
of `"p"`: the call is undefined. -/
theorem size_undefined_at_leaf :
    example_empty.size = .ok 0 ∧ example_empty_key.size = .ok 1 ∧
    example_p.has ['p'] = .ok true ∧
    trie_node.uninitialised example_p._root [3] = true ∧
    example_p.size = .error .undefined_behaviour := by
  decide

/-- C7, the code at the failing input: with `"p"` stored, `operator[]("r")` returns, but
`operator[]("pa")` calls `init_nodes()` on the node of `"p"`, which reads its indeterminate
`_nodes`: the call is undefined. -/
theorem insert_below_stored_key_undefined :
    example_p.has ['p'] = .ok true ∧
    (example_p.subscript ['r']).2 = .ok [4] ∧
    (example_p.subscript ['r']).1.has ['p'] = .ok true ∧
    example_p.over_alphabet ['p', 'a'] = true ∧
    (example_p.subscript ['p', 'a']).2 = .error .undefined_behaviour := by
  decide

/-- C8, the code at the failing input: on the container as constructed, `operator[]("p#")`
creates the node of `"p"` and then reads its indeterminate `_nodes` in `init_nodes()`: the call is
undefined, it does not throw `not_in_alphabet`, and the node of `"p"` has been created by then
(`find("p")` was null and is a node where the call stops).  `operator[]("#")` does throw
`not_in_alphabet`, after `init_nodes()` has allocated the child array of the root: `has("#")`
returned false and throws now. -/
theorem failed_insert_not_atomic :
    example_empty.over_alphabet ['p', '#'] = false ∧
    (example_empty.subscript ['p', '#']).2 = .error .undefined_behaviour ∧
    example_empty.find ['p'] = .ok none ∧
    (example_empty.subscript ['p', '#']).1.find ['p'] = .ok (some [3]) ∧
    (example_empty.subscript ['#']).2 = .error .not_in_alphabet ∧
    example_empty.has ['#'] = .ok false ∧
    (example_empty.subscript ['#']).1.has ['#'] = .error .not_in_alphabet := by
  decide

/-- C9, the code at the failing input: after `trie["p"] = 1`, `erase("p")` resets the value and
reads the indeterminate `_nodes` of the node of `"p"` in `should_prune`: the call is undefined,
and where it stops the node is still there, without a value and without a child. -/
theorem erase_leaves_node_unpruned :
    example_p.has ['p'] = .ok true ∧
    (example_p.erase ['p']).2 = .error .undefined_behaviour ∧
    (example_p.erase ['p']).1.has ['p'] = .ok false ∧
    (example_p.erase ['p']).1.find ['p'] = .ok (some [3]) ∧
    trie_node.dead (example_p.erase ['p']).1._root [3] 5 = true := by
  decide

/-- C10, the code at the failing input: with `"p"` stored, `erase(find("p"))` starts with
`pos++`, which reads the indeterminate `_nodes` of the node of `"p"` in
`successor_in_children`: the call is undefined. -/
theorem erase_at_undefined_at_leaf :
    example_p.find ['p'] = .ok (some [3]) ∧ example_p.has ['p'] = .ok true ∧
    trie_node.uninitialised example_p._root [3] = true ∧
    (example_p.erase_at 100 (some [3])).2 = .error .undefined_behaviour := by
  decide

/-- C11, the code at the failing input: with `"p"` stored, the first `erase(begin())` of the
loop reads the indeterminate `_nodes` of the node of `"p"` in `pos++`: the loop is undefined.
With only the empty key stored the loop is defined and erases nothing: `begin()` is `end()`, the
empty key is still stored and `size()` is 1. -/
theorem erase_from_begin_undefined :
    example_p.begin 100 = .ok (some [3]) ∧
    (erase_from_begin 100 10 example_p).2 = .error .undefined_behaviour ∧
    (erase_from_begin 100 10 example_empty_key).2 = .ok [] ∧
    (erase_from_begin 100 10 example_empty_key).1.has [] = .ok true ∧
    (erase_from_begin 100 10 example_empty_key).1.size = .ok 1 := by
  decide

/-- C12, the code at the failing input: with `"a"` and `"p"` stored, `erase(find("a"),
find("p"))` calls `erase(find("a"))`, whose `pos++` reads the indeterminate `_nodes` of the node
of `"a"`: the call is undefined. -/
theorem erase_range_undefined_at_leaf :
    example_a_p.has [] = .ok false ∧
    example_a_p.find ['a'] = .ok (some [0]) ∧ example_a_p.find ['p'] = .ok (some [3]) ∧
    example_a_p.begin 100 = .ok (some [0]) ∧
    trie_node.uninitialised example_a_p._root [0] = true ∧
    (erase_range 100 (some [3]) 10 example_a_p (some [0])).2 = .error .undefined_behaviour := by
  decide

/-- C14, the code at the failing input: under the comparator `iless`, `trie["p"] = 1` followed
by `trie["P"]` reads 1 from the same node, but `trie["pOlAr"]` reads the indeterminate `_nodes`
of the new node of `"p"` in `init_nodes()`: the call is undefined, and so is `has("PoLaR")` on
what it leaves. -/
theorem equivalent_key_insert_undefined :
    ((insert example_empty_iless ['p'] 1).subscript ['P']).2 = .ok [3] ∧
    ((insert example_empty_iless ['p'] 1).subscript ['P']).1.value [3] = some 1 ∧
    example_empty_iless.over_alphabet ['p', 'O', 'l', 'A', 'r'] = true ∧
    (example_empty_iless.subscript ['p', 'O', 'l', 'A', 'r']).2 =
      .error .undefined_behaviour ∧
    (insert example_empty_iless ['p', 'O', 'l', 'A', 'r'] 1).has ['P', 'o', 'L', 'a', 'R'] =
      .error .undefined_behaviour := by
  decide

/-- C15, the code at the failing input: with `"p"` stored, `has("p#")`, `find("p#")` and
`erase("p#")` reach the node of `"p"` and read its indeterminate `_nodes` in `get_node`: the
calls are undefined, they do not throw `not_in_alphabet`.  On the container as constructed the
`_nodes` of the root is null and `get_node` does not call `index_of`: `has("#")` returns false,
`find("#")` returns the null position and `erase("#")` returns 0. -/
theorem lookup_past_leaf_undefined :
    example_p.over_alphabet ['p', '#'] = false ∧
    example_p.has ['p', '#'] = .error .undefined_behaviour ∧
    example_p.find ['p', '#'] = .error .undefined_behaviour ∧
    (example_p.erase ['p', '#']).2 = .error .undefined_behaviour ∧
    example_empty.over_alphabet ['#'] = false ∧
    example_empty.has ['#'] = .ok false ∧
    example_empty.find ['#'] = .ok none ∧
    (example_empty.erase ['#']).2 = .ok 0 := by
  decide

/-- C20, the code at the failing input: with `"p"` stored, the key `"po"` is over the alphabet
and no node is at its position, but `find("po")` reads the indeterminate `_nodes` of the node of
`"p"` in `get_node`: the call is undefined, it does not return the null iterator (as `find("r")`
does, on which `operator*`, `operator++` and `operator--` throw `null_iterator`). -/
theorem find_past_leaf_undefined :
    example_p.over_alphabet ['p', 'o'] = true ∧
    (trie_node.node_at example_p._root [3, 2]).isSome = false ∧
    trie_node.uninitialised example_p._root [3] = true ∧
    example_p.find ['p', 'o'] = .error .undefined_behaviour ∧
    example_p.find ['r'] = .ok none ∧
    trie_iterator.deref none = .error .null_iterator ∧
    trie_iterator.incr example_p 100 none = .error .null_iterator ∧
    trie_iterator.decr example_p 100 none = .error .null_iterator := by
  decide

/-- C21, the code at the failing input: on the container as constructed `find("")` is the
root, and after `find("")->value() = 7` the empty key is still not stored (`has("")` is false),
yet `operator[]("")` then returns a reference that reads 7, not the default 0.  The case of a key
stored and erased since cannot be reached: `erase("p")` after `trie["p"] = 1` is undefined. -/
theorem stale_payload_returned :
    example_empty.find [] = .ok (some []) ∧
    (example_empty.assign [] 7).has [] = .ok false ∧
    ((example_empty.assign [] 7).subscript []).2 = .ok [] ∧
    ((example_empty.assign [] 7).subscript []).1.has [] = .ok true ∧
    ((example_empty.assign [] 7).subscript []).1.value [] = some 7 ∧
    (example_empty.subscript []).1.value [] = some 0 ∧
    (example_p.erase ['p']).2 = .error .undefined_behaviour := by
  decide

/-- C24, the code at the failing input: with `"a"` and `"p"` stored, the key `"ap"` is over the
alphabet and is not a prefix of a stored key, but `find("ap")` and `has("ap")` read the
indeterminate `_nodes` of the node of `"a"` in `get_node`: the calls are undefined, they do not
return the null position and false. -/
theorem find_of_extension_undefined :
    example_a_p.over_alphabet ['a', 'p'] = true ∧
    example_a_p.find ['a'] = .ok (some [0]) ∧
    trie_node.uninitialised example_a_p._root [0] = true ∧
    example_a_p.find ['a', 'p'] = .error .undefined_behaviour ∧
    example_a_p.has ['a', 'p'] = .error .undefined_behaviour ∧
    example_a_p.find ['l'] = .ok none ∧ example_a_p.has ['l'] = .ok false := by
  decide

end trie

end Trie
